import Mathlib

/-!
Shallow embedding of `MarkdownCorpusBuilder`
(`src/repo_analyst/src/adapters/git_platform/markdown_builder.py`).

Paths are modelled as their component lists (Python `pathlib.Path.parts`);
the filesystem walk `repo_path.rglob('*')` is modelled as an explicit list of
items (path plus is-directory flag); reading a file is a function
`PyPath → Option String` (`none` models a read failure, i.e. `read_text`
raising); Python's stable `sorted` is modelled by stable insertion sort;
`len(s.encode('utf-8'))` is modelled by summing the UTF-8 sizes of the
characters.  Python string comparison (code-point lexicographic) is modelled
by a structural lexicographic order on the character lists.
-/

/-- Python code-point lexicographic `<=` on character lists. -/
def charListLe : List Char → List Char → Bool
  | [], _ => true
  | _ :: _, [] => false
  | a :: as, b :: bs => if a < b then true else if b < a then false else charListLe as bs

/-- Python `<=` on strings (code-point lexicographic). -/
def strLeb (a b : String) : Bool := charListLe a.data b.data

/-- Lexicographic comparison of a pair of sort keys, as Python compares
key tuples: primary keys decide unless equal, then the secondary keys. -/
def lexLe {A B : Type} [DecidableEq A] (leA : A → A → Bool) (leB : B → B → Bool)
    (x y : A × B) : Bool :=
  if x.1 = y.1 then leB x.2 y.2 else leA x.1 y.1

/-- Boolean `<=` on naturals (for the depth component of Python sort keys). -/
def natLeb (a b : Nat) : Bool := a ≤ b

/-- A filesystem path, as its list of components (Python `Path.parts`). -/
structure PyPath where
  parts : List String
deriving DecidableEq

/-- Python `Path.name`: the final path component. -/
def PyPath.name (p : PyPath) : String := (p.parts.getLast?).getD ""

/-- Python `Path.suffix` computed from a file name: the final extension with
its leading dot, empty when the name has no dot in a suffix position
(mirrors CPython: the last dot must be neither first nor last character). -/
def nameSuffix (name : String) : String :=
  let cs := name.data
  match cs.reverse.findIdx? (fun c => c == '.') with
  | none => ""
  | some j =>
    let i := cs.length - 1 - j
    if 0 < i ∧ i < cs.length - 1 then String.mk (cs.drop i) else ""

/-- Python `Path.suffix` of a path. -/
def PyPath.suffix (p : PyPath) : String := nameSuffix p.name

/-- Python `str.lower()` (ASCII case folding suffices for extensions). -/
def lowerStr (s : String) : String := String.mk (s.data.map Char.toLower)

/-- Python `str(path)` for a path given by components: components joined
with `/` (POSIX rendering, which is also what path comparison uses). -/
def pathStr (parts : List String) : String := String.intercalate "/" parts

/-- `MarkdownCorpusBuilder.SOURCE_EXTENSIONS`. -/
def SOURCE_EXTENSIONS : List String :=
  [".py", ".js", ".ts", ".tsx", ".jsx", ".java", ".kt", ".scala", ".go", ".rb",
   ".php", ".rs", ".c", ".cpp", ".h", ".hpp", ".cs", ".xml", ".json", ".yml",
   ".yaml", ".ini", ".tf", ".sql", ".sh", ".bat", ".ps1", ".gradle", ".mk",
   ".md", ".html", ".css", ".toml", ".txt"]

/-- `MarkdownCorpusBuilder.PRIORITY_GROUPS[1]` (exact file names). -/
def PRIORITY_1 : List String :=
  ["README.md", "README.MD", "readme.md", "LICENSE", "CHANGELOG.md", "CONTRIBUTING.md"]

/-- `MarkdownCorpusBuilder.PRIORITY_GROUPS[2]` (application code extensions). -/
def PRIORITY_2 : List String :=
  [".py", ".js", ".ts", ".tsx", ".jsx", ".java", ".kt", ".go", ".rs"]

/-- `MarkdownCorpusBuilder.PRIORITY_GROUPS[3]` (configuration extensions). -/
def PRIORITY_3 : List String := [".yml", ".yaml", ".json", ".toml", ".xml"]

/-- `MarkdownCorpusBuilder.PRIORITY_GROUPS[4]` (documentation and scripts). -/
def PRIORITY_4 : List String := [".md", ".txt", ".sh", ".sql"]

/-- `MarkdownCorpusBuilder.PRIORITY_GROUPS[5]` (frontend extensions). -/
def PRIORITY_5 : List String := [".html", ".css"]

/-- `MarkdownCorpusBuilder.EXCLUDE_DIRS` (baseline excluded directory names). -/
def EXCLUDE_DIRS : List String :=
  [".git", "node_modules", "dist", "build", "target", "venv", ".venv",
   "__pycache__", ".pytest_cache", ".idea", ".vscode", "vendor",
   "coverage", ".coverage", "htmlcov", ".tox", "eggs", ".eggs"]

/-- One entry of the `repo_path.rglob('*')` walk: a path and whether it is a
directory. -/
structure FsItem where
  path : PyPath
  isDir : Bool
deriving DecidableEq

/-- `MarkdownCorpusBuilder._collect_files`: keep non-directories whose path
has no component in the exclude set and whose lowered suffix is whitelisted
or whose name is a tier-1 name. -/
def collectFiles (items : List FsItem) (excludeDirs : List String) : List PyPath :=
  items.filterMap fun item =>
    if item.isDir then none
    else if excludeDirs.any (fun e => item.path.parts.contains e) then none
    else if SOURCE_EXTENSIONS.contains (lowerStr item.path.suffix)
            || PRIORITY_1.contains item.path.name then some item.path
    else none

/-- Tier-1 sort key relation: Python `sorted(priority_1, key=lambda x: x.name)`
compares by file name. -/
def nameLe (f g : PyPath) : Prop := strLeb f.name g.name = true

instance : DecidableRel nameLe := fun _ _ => instDecidableEqBool _ _

/-- Tiers 2-5 and remainder sort key relation: Python
`sorted(..., key=lambda x: (len(x.parts), x.name))`. -/
def depthNameLe (f g : PyPath) : Prop :=
  lexLe natLeb strLeb (f.parts.length, f.name) (g.parts.length, g.name) = true

instance : DecidableRel depthNameLe := fun _ _ => instDecidableEqBool _ _

/-- The tier-1 selection `[f for f in files if f.name in PRIORITY_GROUPS[1]]`. -/
def tier1 (files : List PyPath) : List PyPath :=
  files.filter (fun f => PRIORITY_1.contains f.name)

/-- A tier 2-5 selection
`[f for f in files if f.suffix in PRIORITY_GROUPS[i] and f not in priority_1]`. -/
def bucket (group : List String) (priority1 : List PyPath)
    (files : List PyPath) : List PyPath :=
  files.filter (fun f => group.contains f.suffix && !(priority1.contains f))

/-- The five tier lists of `_prioritize_files`, sorted and concatenated (the
value of the Python `prioritized` list before the remainder is appended). -/
def placedOf (files : List PyPath) : List PyPath :=
  List.insertionSort nameLe (tier1 files)
    ++ List.insertionSort depthNameLe (bucket PRIORITY_2 (tier1 files) files)
    ++ List.insertionSort depthNameLe (bucket PRIORITY_3 (tier1 files) files)
    ++ List.insertionSort depthNameLe (bucket PRIORITY_4 (tier1 files) files)
    ++ List.insertionSort depthNameLe (bucket PRIORITY_5 (tier1 files) files)

/-- `MarkdownCorpusBuilder._prioritize_files`: five sorted tiers, then the
sorted remainder `[f for f in files if f not in prioritized]`. -/
def prioritizeFiles (files : List PyPath) : List PyPath :=
  placedOf files
    ++ List.insertionSort depthNameLe
        (files.filter (fun f => !((placedOf files).contains f)))

/-- Python `file_path.relative_to(repo_path)` for a file under the root:
drop the root's leading components. -/
def relParts (repoPath f : PyPath) : List String :=
  f.parts.drop repoPath.parts.length

/-- The proper ancestors of a file's relative path, deepest first, as
produced by Python `rel_path.parents` with `Path('.')` skipped. -/
def ancestorsOf (repoPath f : PyPath) : List (List String) :=
  let rel := relParts repoPath f
  (List.range (rel.length - 1)).map (fun k => rel.take (rel.length - 1 - k))

/-- The deduplicated directory set collected by `_generate_tree` (the Python
`dirs` set, realised as a duplicate-free list). -/
def treeDirs (files : List PyPath) (repoPath : PyPath) : List (List String) :=
  (files.flatMap (fun f => ancestorsOf repoPath f)).dedup

/-- Directory sort key relation of `_generate_tree`: Python
`sorted(dirs, key=lambda x: (len(x.parts), str(x)))`. -/
def dirLe (d e : List String) : Prop :=
  lexLe natLeb strLeb (d.length, pathStr d) (e.length, pathStr e) = true

instance : DecidableRel dirLe := fun _ _ => instDecidableEqBool _ _

/-- File sort key relation of `_generate_tree`: Python
`sorted(files, key=lambda x: (x.parent, x.name))`, with paths compared by
their rendered strings. -/
def parentNameLe (f g : PyPath) : Prop :=
  lexLe strLeb strLeb (pathStr f.parts.dropLast, f.name)
    (pathStr g.parts.dropLast, g.name) = true

instance : DecidableRel parentNameLe := fun _ _ => instDecidableEqBool _ _

/-- Python `"  " * n`. -/
def indentStr (n : Nat) : String := String.join (List.replicate n "  ")

/-- One directory line of the tree: indent by depth, then `name/`. -/
def dirLine (d : List String) : String :=
  indentStr d.length ++ (d.getLast?.getD "") ++ "/"

/-- One file line of the tree: indent by the relative path's depth, then the
file name. -/
def fileLine (repoPath f : PyPath) : String :=
  indentStr (relParts repoPath f).length ++ f.name

/-- `MarkdownCorpusBuilder._generate_tree`: a fenced flat listing — root
line, sorted deduplicated directories, then sorted files. -/
def generateTree (files : List PyPath) (repoPath : PyPath) : String :=
  String.intercalate "\n"
    (["```", repoPath.name ++ "/"]
      ++ (List.insertionSort dirLe (treeDirs files repoPath)).map dirLine
      ++ (List.insertionSort parentNameLe files).map (fileLine repoPath)
      ++ ["```"])

/-- Python `len(s.encode('utf-8'))`: the UTF-8 byte size of a string. -/
def strBytes (s : String) : Nat := (s.data.map Char.utf8Size).sum

/-- The header written by `_write_markdown` (`genTime` stands for the
`datetime.utcnow().isoformat()` timestamp). -/
def headerStr (repoPath : PyPath) (genTime : String) : String :=
  "# Repository: " ++ repoPath.name ++ "\n\n"
    ++ ("Generated: " ++ genTime ++ "\n\n") ++ "## Directory Structure\n\n"

/-- The section title written after the tree. -/
def contentsTitle : String := "## File Contents\n\n"

/-- The trailing note appended when the build is incomplete. -/
def incompleteNote : String :=
  "\n\n---\n**Note**: Size limit reached. Not all files included.\n"

/-- Python `file_path.suffix[1:]`: the extension without its leading dot. -/
def suffixTag (f : PyPath) : String := String.mk (f.suffix.data.drop 1)

/-- One file section of the corpus: heading with the root-relative path and
a fenced code block tagged with the bare extension. -/
def sectionFor (repoPath f : PyPath) (content : String) : String :=
  "### " ++ pathStr (relParts repoPath f) ++ "\n\n"
    ++ ("```" ++ suffixTag f ++ "\n") ++ content ++ "\n```\n\n"

/-- State of the per-file loop of `_write_markdown`: bytes written after the
section title, the files actually written, the running size, and the
completeness flag. -/
structure LoopResult where
  body : String
  written : List PyPath
  size : Nat
  isComplete : Bool
deriving DecidableEq

/-- The per-file loop of `_write_markdown`: stop (incomplete) when the
running size already reached the budget; skip a file whose read fails; stop
(incomplete) before writing a section that would exceed the budget;
otherwise write the section and continue. -/
def writeLoop (read : PyPath → Option String) (repoPath : PyPath)
    (maxBytes : Int) : List PyPath → Nat → LoopResult
  | [], size => ⟨"", [], size, true⟩
  | f :: rest, size =>
    if (size : Int) ≥ maxBytes then ⟨"", [], size, false⟩
    else
      match read f with
      | none => writeLoop read repoPath maxBytes rest size
      | some content =>
        let sec := sectionFor repoPath f content
        let secSize := strBytes sec
        if (size : Int) + (secSize : Int) > maxBytes then ⟨"", [], size, false⟩
        else
          let r := writeLoop read repoPath maxBytes rest (size + secSize)
          ⟨sec ++ r.body, f :: r.written, r.size, r.isComplete⟩

/-- The outcome of `_write_markdown`: the document text, the files written
as sections, and the returned `(file_count, total_size, is_complete)`. -/
structure WriteResult where
  doc : String
  written : List PyPath
  fileCount : Nat
  totalSize : Nat
  isComplete : Bool
deriving DecidableEq

/-- `MarkdownCorpusBuilder._write_markdown`: header, tree, a two-byte
separator that is written but not counted, section title, the per-file loop,
and the trailing note when incomplete. -/
def writeMarkdown (files : List PyPath) (repoPath : PyPath)
    (read : PyPath → Option String) (genTime : String) (maxBytes : Int) :
    WriteResult :=
  let header := headerStr repoPath genTime
  let tree := generateTree files repoPath
  let size0 := strBytes header + strBytes tree + strBytes contentsTitle
  let r := writeLoop read repoPath maxBytes files size0
  ⟨header ++ tree ++ "\n\n" ++ contentsTitle ++ r.body
      ++ (if r.isComplete then "" else incompleteNote),
    r.written, r.written.length,
    if r.isComplete then r.size else r.size + strBytes incompleteNote,
    r.isComplete⟩

/-- The counted size of everything written before the first file section:
header, tree and section title (the separator is not counted). -/
def preambleBytes (files : List PyPath) (repoPath : PyPath)
    (genTime : String) : Nat :=
  strBytes (headerStr repoPath genTime) + strBytes (generateTree files repoPath)
    + strBytes contentsTitle

/-- The cumulative byte size of the sections of all files. -/
def sectionsTotal (files : List PyPath) (repoPath : PyPath)
    (read : PyPath → Option String) : Nat :=
  (files.map (fun f => strBytes (sectionFor repoPath f ((read f).getD "")))).sum

/-- Helper: membership in `collectFiles` implies origin among the walked
items and that no path component is excluded. -/
theorem mem_collectFiles (items : List FsItem) (excludeDirs : List String)
    (p : PyPath) (hp : p ∈ collectFiles items excludeDirs) :
    (∃ item ∈ items, item.path = p) ∧ ∀ e ∈ excludeDirs, e ∉ p.parts := by
  rw [collectFiles, List.mem_filterMap] at hp
  obtain ⟨item, hitem, heq⟩ := hp
  by_cases hd : item.isDir
  · simp [hd] at heq
  · simp [hd] at heq
    obtain ⟨hnone, _, hpath⟩ := heq
    subst hpath
    exact ⟨⟨item, hitem, rfl⟩, fun e he hmem => (hnone e he) hmem⟩

/-- C7: for every walked tree and every merged exclude set, a file with an
excluded directory name as a component of its path below the repository root
is never returned by `_collect_files`, whatever its extension. -/
theorem collectFiles_excludes_nested (items : List FsItem)
    (excludeDirs : List String) (rootParts relParts : List String) (c : String)
    (hc : c ∈ relParts) (hex : c ∈ excludeDirs) :
    PyPath.mk (rootParts ++ relParts) ∉ collectFiles items excludeDirs := by
  intro hmem
  have h := (mem_collectFiles items excludeDirs _ hmem).2 c hex
  exact h (by simp [hc])

/-- Witness for C7: `a/node_modules/b/c.py` is not collected even though
`.py` is whitelisted and the file item is walked. -/
theorem collectFiles_excludes_nested_witness :
    PyPath.mk (["repo", "a"] ++ ["node_modules", "b", "c.py"]) ∉
      collectFiles
        [⟨⟨["repo", "a", "node_modules", "b", "c.py"]⟩, false⟩]
        EXCLUDE_DIRS :=
  collectFiles_excludes_nested _ EXCLUDE_DIRS ["repo", "a"]
    ["node_modules", "b", "c.py"] "node_modules" (by decide) (by decide)

/-- C9: when the repository root's own absolute path contains an excluded
component, every walked file is pruned and `_collect_files` returns `[]`:
the exclusion test inspects all components of the absolute path, including
those above the repository root. -/
theorem collectFiles_root_excluded (items : List FsItem)
    (excludeDirs : List String) (rootParts : List String) (c : String)
    (hc : c ∈ rootParts) (hex : c ∈ excludeDirs)
    (hitems : ∀ item ∈ items, ∃ rel, item.path.parts = rootParts ++ rel) :
    collectFiles items excludeDirs = [] := by
  rw [List.eq_nil_iff_forall_not_mem]
  intro p hp
  obtain ⟨⟨item, hitem, hpath⟩, hnone⟩ := mem_collectFiles items excludeDirs p hp
  obtain ⟨rel, hparts⟩ := hitems item hitem
  apply hnone c hex
  rw [← hpath, hparts]
  simp [hc]

/-- Witness for C9: a repository mirrored under `/srv/build/myrepo` with
`build` excluded collects nothing, not even a whitelisted `.py` file. -/
theorem collectFiles_root_excluded_witness :
    collectFiles [⟨⟨["/", "srv", "build", "myrepo", "app.py"]⟩, false⟩]
      EXCLUDE_DIRS = [] :=
  collectFiles_root_excluded _ EXCLUDE_DIRS ["/", "srv", "build", "myrepo"]
    "build" (by decide) (by decide)
    (by intro item h; simp at h; subst h; exact ⟨["app.py"], rfl⟩)

/-- Totality of the code-point lexicographic order. -/
theorem charListLe_total : ∀ as bs : List Char, (charListLe as bs || charListLe bs as) = true
  | [], _ => by simp [charListLe]
  | _ :: _, [] => by simp [charListLe]
  | a :: as, b :: bs => by
    rcases lt_trichotomy a b with h | h | h
    · simp [charListLe, h]
    · subst h
      simpa [charListLe, lt_irrefl] using charListLe_total as bs
    · simp [charListLe, h, not_lt_of_gt h]

/-- Transitivity of the code-point lexicographic order. -/
theorem charListLe_trans : ∀ as bs cs : List Char, charListLe as bs = true →
    charListLe bs cs = true → charListLe as cs = true
  | [], _, _, _, _ => by simp [charListLe]
  | _ :: _, [], _, h, _ => by simp [charListLe] at h
  | _ :: _, _ :: _, [], _, h => by simp [charListLe] at h
  | a :: as, b :: bs, c :: cs, h1, h2 => by
    rcases lt_trichotomy a b with hab | hab | hab
    · rcases lt_trichotomy b c with hbc | hbc | hbc
      · simp [charListLe, lt_trans hab hbc]
      · subst hbc; simp [charListLe, hab]
      · rw [charListLe, if_neg (by exact not_lt_of_gt hbc), if_pos hbc] at h2
        exact absurd h2 (by simp)
    · subst hab
      rcases lt_trichotomy a c with hac | hac | hac
      · simp [charListLe, hac]
      · subst hac
        rw [charListLe, if_neg (lt_irrefl a), if_neg (lt_irrefl a)] at h1 h2 ⊢
        exact charListLe_trans as bs cs h1 h2
      · rw [charListLe, if_neg (by exact not_lt_of_gt hac), if_pos hac] at h2
        exact absurd h2 (by simp)
    · rw [charListLe, if_neg (by exact not_lt_of_gt hab), if_pos hab] at h1
      exact absurd h1 (by simp)

/-- Antisymmetry of the code-point lexicographic order. -/
theorem charListLe_antisymm : ∀ as bs : List Char, charListLe as bs = true →
    charListLe bs as = true → as = bs
  | [], [], _, _ => rfl
  | [], _ :: _, _, h => by simp [charListLe] at h
  | _ :: _, [], h, _ => by simp [charListLe] at h
  | a :: as, b :: bs, h1, h2 => by
    rcases lt_trichotomy a b with hab | hab | hab
    · rw [charListLe, if_neg (by exact not_lt_of_gt hab), if_pos hab] at h2
      exact absurd h2 (by simp)
    · subst hab
      rw [charListLe, if_neg (lt_irrefl a), if_neg (lt_irrefl a)] at h1 h2
      rw [charListLe_antisymm as bs h1 h2]
    · rw [charListLe, if_neg (by exact not_lt_of_gt hab), if_pos hab] at h1
      exact absurd h1 (by simp)

/-- Totality of Python string comparison. -/
theorem strLeb_total (a b : String) : (strLeb a b || strLeb b a) = true :=
  charListLe_total a.data b.data

/-- Transitivity of Python string comparison. -/
theorem strLeb_trans {a b c : String} (h1 : strLeb a b = true)
    (h2 : strLeb b c = true) : strLeb a c = true :=
  charListLe_trans a.data b.data c.data h1 h2

/-- Antisymmetry of Python string comparison. -/
theorem strLeb_antisymm {a b : String} (h1 : strLeb a b = true)
    (h2 : strLeb b a = true) : a = b :=
  String.ext (charListLe_antisymm a.data b.data h1 h2)

/-- Totality of the tuple-key comparison used by Python `sorted`. -/
theorem lexLe_total {A B : Type} [DecidableEq A] (leA : A → A → Bool)
    (leB : B → B → Bool) (hA : ∀ a b, (leA a b || leA b a) = true)
    (hB : ∀ a b, (leB a b || leB b a) = true) (x y : A × B) :
    (lexLe leA leB x y || lexLe leA leB y x) = true := by
  unfold lexLe
  by_cases h : x.1 = y.1
  · rw [if_pos h, if_pos h.symm]
    exact hB x.2 y.2
  · rw [if_neg h, if_neg (Ne.symm h)]
    exact hA x.1 y.1

/-- Transitivity of the tuple-key comparison used by Python `sorted`. -/
theorem lexLe_trans {A B : Type} [DecidableEq A] (leA : A → A → Bool)
    (leB : B → B → Bool)
    (hAt : ∀ a b c, leA a b = true → leA b c = true → leA a c = true)
    (hAa : ∀ a b, leA a b = true → leA b a = true → a = b)
    (hBt : ∀ a b c, leB a b = true → leB b c = true → leB a c = true)
    (x y z : A × B) (h1 : lexLe leA leB x y = true)
    (h2 : lexLe leA leB y z = true) : lexLe leA leB x z = true := by
  unfold lexLe at h1 h2 ⊢
  by_cases hxy : x.1 = y.1
  · by_cases hyz : y.1 = z.1
    · rw [if_pos hxy] at h1
      rw [if_pos hyz] at h2
      rw [if_pos (hxy.trans hyz)]
      exact hBt _ _ _ h1 h2
    · rw [if_neg hyz] at h2
      rw [if_neg (by rw [hxy]; exact hyz), hxy]
      exact h2
  · by_cases hyz : y.1 = z.1
    · rw [if_neg hxy] at h1
      rw [if_neg (by rw [← hyz]; exact hxy), ← hyz]
      exact h1
    · rw [if_neg hxy] at h1
      rw [if_neg hyz] at h2
      have hxz : x.1 ≠ z.1 := by
        intro he
        exact hxy (hAa _ _ h1 (he ▸ h2))
      rw [if_neg hxz]
      exact hAt _ _ _ h1 h2

/-- Totality of the natural-number component comparison. -/
theorem natLeb_total (a b : Nat) : (natLeb a b || natLeb b a) = true := by
  simp [natLeb]
  omega

/-- Transitivity of the natural-number component comparison. -/
theorem natLeb_trans (a b c : Nat) (h1 : natLeb a b = true)
    (h2 : natLeb b c = true) : natLeb a c = true := by
  simp [natLeb] at *
  omega

/-- Antisymmetry of the natural-number component comparison. -/
theorem natLeb_antisymm (a b : Nat) (h1 : natLeb a b = true)
    (h2 : natLeb b a = true) : a = b := by
  simp [natLeb] at *
  omega

instance : IsTotal PyPath nameLe :=
  ⟨fun a b => by
    have h := strLeb_total a.name b.name
    rcases Bool.or_eq_true_iff.mp h with h' | h'
    · exact Or.inl h'
    · exact Or.inr h'⟩

instance : IsTrans PyPath nameLe :=
  ⟨fun _ _ _ h1 h2 => strLeb_trans h1 h2⟩

instance : IsTotal PyPath depthNameLe :=
  ⟨fun a b => by
    have h := lexLe_total natLeb strLeb natLeb_total strLeb_total
      (a.parts.length, a.name) (b.parts.length, b.name)
    rcases Bool.or_eq_true_iff.mp h with h' | h'
    · exact Or.inl h'
    · exact Or.inr h'⟩

instance : IsTrans PyPath depthNameLe :=
  ⟨fun _ _ _ h1 h2 => lexLe_trans natLeb strLeb natLeb_trans natLeb_antisymm
    (fun _ _ _ ha hb => strLeb_trans ha hb) _ _ _ h1 h2⟩

/-- Helper: count in a filtered list, both polarities. -/
theorem count_filter' (p : PyPath → Bool) (l : List PyPath) (a : PyPath) :
    (l.filter p).count a = if p a = true then l.count a else 0 := by
  by_cases h : p a = true
  · rw [if_pos h, List.count_filter h]
  · rw [if_neg h]
    exact List.count_eq_zero.mpr (fun hm => h (List.mem_filter.mp hm).2)

/-- Helper: stable sorting preserves counts. -/
theorem count_insertionSort (r : PyPath → PyPath → Prop) [DecidableRel r]
    (l : List PyPath) (a : PyPath) :
    (List.insertionSort r l).count a = l.count a :=
  (List.perm_insertionSort r l).count_eq a

/-- Helper: tier-1 membership test, for a collected file. -/
theorem contains_tier1_iff {files : List PyPath} {a : PyPath} (hmem : a ∈ files) :
    (tier1 files).contains a = true ↔ PRIORITY_1.contains a.name = true := by
  simp [tier1, hmem]

/-- Helper: tier 2 and tier 3 extension sets are disjoint. -/
theorem disjoint23 (s : String) (h : s ∈ PRIORITY_2) :
    s ∉ PRIORITY_3 := by
  fin_cases h <;> decide

/-- Helper: tier 2 and tier 4 extension sets are disjoint. -/
theorem disjoint24 (s : String) (h : s ∈ PRIORITY_2) :
    s ∉ PRIORITY_4 := by
  fin_cases h <;> decide

/-- Helper: tier 2 and tier 5 extension sets are disjoint. -/
theorem disjoint25 (s : String) (h : s ∈ PRIORITY_2) :
    s ∉ PRIORITY_5 := by
  fin_cases h <;> decide

/-- Helper: tier 3 and tier 4 extension sets are disjoint. -/
theorem disjoint34 (s : String) (h : s ∈ PRIORITY_3) :
    s ∉ PRIORITY_4 := by
  fin_cases h <;> decide

/-- Helper: tier 3 and tier 5 extension sets are disjoint. -/
theorem disjoint35 (s : String) (h : s ∈ PRIORITY_3) :
    s ∉ PRIORITY_5 := by
  fin_cases h <;> decide

/-- Helper: tier 4 and tier 5 extension sets are disjoint. -/
theorem disjoint45 (s : String) (h : s ∈ PRIORITY_4) :
    s ∉ PRIORITY_5 := by
  fin_cases h <;> decide

/-- Helper: the Boolean membership test is true for members. -/
theorem contains_eq_true_of_mem {α : Type} [DecidableEq α] {l : List α} {a : α}
    (h : a ∈ l) : l.contains a = true := by
  simpa using h

/-- Helper: the Boolean membership test is false for non-members. -/
theorem contains_eq_false_of_not_mem {α : Type} [DecidableEq α] {l : List α}
    {a : α} (h : a ∉ l) : l.contains a = false := by
  rcases Bool.eq_false_or_eq_true (l.contains a) with ht | hf
  · exact absurd (by simpa using ht) h
  · exact hf

/-- Helper: membership in the tier-1 selection. -/
theorem mem_tier1 {files : List PyPath} {a : PyPath} :
    a ∈ tier1 files ↔ a ∈ files ∧ PRIORITY_1.contains a.name = true :=
  List.mem_filter

/-- Helper: membership in a tier 2-5 selection. -/
theorem mem_bucket {g : List String} {p1 files : List PyPath} {a : PyPath} :
    a ∈ bucket g p1 files ↔
      a ∈ files ∧ (g.contains a.suffix && !(p1.contains a)) = true :=
  List.mem_filter

/-- Helper: a collected file is in the Python `prioritized` list (before the
remainder is appended) iff its name is tier-1 or its suffix matches one of
the four extension groups. -/
theorem mem_placed_iff {files : List PyPath} {a : PyPath} (hmem : a ∈ files) :
    a ∈ placedOf files ↔
      (PRIORITY_1.contains a.name = true ∨ PRIORITY_2.contains a.suffix = true ∨
       PRIORITY_3.contains a.suffix = true ∨ PRIORITY_4.contains a.suffix = true ∨
       PRIORITY_5.contains a.suffix = true) := by
  constructor
  · intro h
    rw [placedOf] at h
    simp only [List.mem_append, List.mem_insertionSort] at h
    rcases h with (((h | h) | h) | h) | h
    · exact Or.inl (mem_tier1.mp h).2
    · have hb := (mem_bucket.mp h).2
      rw [Bool.and_eq_true] at hb
      exact Or.inr (Or.inl hb.1)
    · have hb := (mem_bucket.mp h).2
      rw [Bool.and_eq_true] at hb
      exact Or.inr (Or.inr (Or.inl hb.1))
    · have hb := (mem_bucket.mp h).2
      rw [Bool.and_eq_true] at hb
      exact Or.inr (Or.inr (Or.inr (Or.inl hb.1)))
    · have hb := (mem_bucket.mp h).2
      rw [Bool.and_eq_true] at hb
      exact Or.inr (Or.inr (Or.inr (Or.inr hb.1)))
  · intro h
    rw [placedOf]
    simp only [List.mem_append, List.mem_insertionSort]
    by_cases h1 : PRIORITY_1.contains a.name = true
    · exact Or.inl (Or.inl (Or.inl (Or.inl (mem_tier1.mpr ⟨hmem, h1⟩))))
    · have ht1f : ((tier1 files).contains a) = false :=
        contains_eq_false_of_not_mem (fun hc => h1 (mem_tier1.mp hc).2)
      rcases h with h | h | h | h | h
      · exact absurd h h1
      · exact Or.inl (Or.inl (Or.inl (Or.inr
          (mem_bucket.mpr ⟨hmem, by rw [h, ht1f]; rfl⟩))))
      · exact Or.inl (Or.inl (Or.inr (mem_bucket.mpr ⟨hmem, by rw [h, ht1f]; rfl⟩)))
      · exact Or.inl (Or.inr (mem_bucket.mpr ⟨hmem, by rw [h, ht1f]; rfl⟩))
      · exact Or.inr (mem_bucket.mpr ⟨hmem, by rw [h, ht1f]; rfl⟩)

/-- Helper: everything `_prioritize_files` returns comes from its input. -/
theorem mem_files_of_mem_prioritize {files : List PyPath} {a : PyPath}
    (h : a ∈ prioritizeFiles files) : a ∈ files := by
  rw [prioritizeFiles] at h
  rcases List.mem_append.mp h with h | h
  · rw [placedOf] at h
    simp only [List.mem_append, List.mem_insertionSort] at h
    rcases h with (((h | h) | h) | h) | h
    · exact (mem_tier1.mp h).1
    all_goals exact (mem_bucket.mp h).1
  · rw [List.mem_insertionSort] at h
    exact (List.mem_filter.mp h).1

/-- Helper: `_prioritize_files` permutes its input: the six buckets are
pairwise disjoint and jointly exhaustive, and each is a sorted filter. -/
theorem perm_prioritize (files : List PyPath) :
    (prioritizeFiles files).Perm files := by
  rw [List.perm_iff_count]
  intro a
  by_cases hmem : a ∈ files
  · have e1 : (tier1 files).count a =
        if PRIORITY_1.contains a.name = true then files.count a else 0 :=
      count_filter' _ files a
    have e2 : (bucket PRIORITY_2 (tier1 files) files).count a =
        if (PRIORITY_2.contains a.suffix && !((tier1 files).contains a)) = true
        then files.count a else 0 := count_filter' _ files a
    have e3 : (bucket PRIORITY_3 (tier1 files) files).count a =
        if (PRIORITY_3.contains a.suffix && !((tier1 files).contains a)) = true
        then files.count a else 0 := count_filter' _ files a
    have e4 : (bucket PRIORITY_4 (tier1 files) files).count a =
        if (PRIORITY_4.contains a.suffix && !((tier1 files).contains a)) = true
        then files.count a else 0 := count_filter' _ files a
    have e5 : (bucket PRIORITY_5 (tier1 files) files).count a =
        if (PRIORITY_5.contains a.suffix && !((tier1 files).contains a)) = true
        then files.count a else 0 := count_filter' _ files a
    have er : (files.filter (fun f => !((placedOf files).contains f))).count a =
        if (!((placedOf files).contains a)) = true
        then files.count a else 0 := count_filter' _ files a
    have esplit : (prioritizeFiles files).count a =
        (tier1 files).count a + (bucket PRIORITY_2 (tier1 files) files).count a
          + (bucket PRIORITY_3 (tier1 files) files).count a
          + (bucket PRIORITY_4 (tier1 files) files).count a
          + (bucket PRIORITY_5 (tier1 files) files).count a
          + (files.filter (fun f => !((placedOf files).contains f))).count a := by
      rw [prioritizeFiles, List.count_append, placedOf, List.count_append,
        List.count_append, List.count_append, List.count_append,
        count_insertionSort, count_insertionSort, count_insertionSort,
        count_insertionSort, count_insertionSort, count_insertionSort]
    rw [esplit, e1, e2, e3, e4, e5, er]
    by_cases h1 : a.name ∈ PRIORITY_1
    · have ht1 : a ∈ tier1 files :=
        mem_tier1.mpr ⟨hmem, contains_eq_true_of_mem h1⟩
      have hp : a ∈ placedOf files := by
        have := (mem_placed_iff hmem).mpr (Or.inl (contains_eq_true_of_mem h1))
        simpa using this
      simp [h1, ht1, hp]
    · have ht1 : a ∉ tier1 files := fun hc => h1 (by simpa using (mem_tier1.mp hc).2)
      by_cases h2 : a.suffix ∈ PRIORITY_2
      · have hp : a ∈ placedOf files := by
          have := (mem_placed_iff hmem).mpr
            (Or.inr (Or.inl (contains_eq_true_of_mem h2)))
          simpa using this
        simp [h1, h2, disjoint23 _ h2, disjoint24 _ h2, disjoint25 _ h2, ht1, hp]
      · by_cases h3 : a.suffix ∈ PRIORITY_3
        · have hp : a ∈ placedOf files := by
            have := (mem_placed_iff hmem).mpr
              (Or.inr (Or.inr (Or.inl (contains_eq_true_of_mem h3))))
            simpa using this
          simp [h1, h2, h3, disjoint34 _ h3, disjoint35 _ h3, ht1, hp]
        · by_cases h4 : a.suffix ∈ PRIORITY_4
          · have hp : a ∈ placedOf files := by
              have := (mem_placed_iff hmem).mpr
                (Or.inr (Or.inr (Or.inr (Or.inl (contains_eq_true_of_mem h4)))))
              simpa using this
            simp [h1, h2, h3, h4, disjoint45 _ h4, ht1, hp]
          · by_cases h5 : a.suffix ∈ PRIORITY_5
            · have hp : a ∈ placedOf files := by
                have := (mem_placed_iff hmem).mpr
                  (Or.inr (Or.inr (Or.inr (Or.inr (contains_eq_true_of_mem h5)))))
                simpa using this
              simp [h1, h2, h3, h4, h5, ht1, hp]
            · have hp : a ∉ placedOf files := fun hc => by
                rcases (mem_placed_iff hmem).mp hc with h | h | h | h | h
                exacts [h1 (by simpa using h), h2 (by simpa using h),
                  h3 (by simpa using h), h4 (by simpa using h),
                  h5 (by simpa using h)]
              simp [h1, h2, h3, h4, h5, ht1, hp]
  · have h0 : files.count a = 0 := List.count_eq_zero.mpr hmem
    have h0' : (prioritizeFiles files).count a = 0 :=
      List.count_eq_zero.mpr (fun hc => hmem (mem_files_of_mem_prioritize hc))
    rw [h0, h0']

/-- C4: the sequence returned by `_prioritize_files` contains every input
file exactly once — it is a permutation of the collected file list (so for
distinct inputs no file is dropped and none appears in two tiers or in a
tier and the remainder), and distinct inputs give a duplicate-free output. -/
theorem prioritizeFiles_exactly_once (files : List PyPath) :
    (prioritizeFiles files).Perm files ∧
      (files.Nodup → ∀ f ∈ files, (prioritizeFiles files).count f = 1) := by
  refine ⟨perm_prioritize files, fun hnd f hf => ?_⟩
  rw [(perm_prioritize files).count_eq f]
  exact List.count_eq_one_of_mem hnd hf

/-- Helper: a false Boolean membership test means non-membership. -/
theorem not_mem_of_contains_eq_false {α : Type} [DecidableEq α] {l : List α}
    {a : α} (h : l.contains a = false) : a ∉ l :=
  fun hm => by
    rw [contains_eq_true_of_mem hm] at h
    exact Bool.noConfusion h

/-- Helper: no tier-1 file name has suffix `.py`. -/
theorem tier1_not_py (n : String) (h : n ∈ PRIORITY_1) : nameSuffix n ≠ ".py" := by
  fin_cases h <;> decide

/-- Helper: `_prioritize_files` as a right-nested concatenation of its six
sorted segments. -/
theorem prioritize_decomp (files : List PyPath) :
    prioritizeFiles files =
      List.insertionSort nameLe (tier1 files)
      ++ (List.insertionSort depthNameLe (bucket PRIORITY_2 (tier1 files) files)
      ++ (List.insertionSort depthNameLe (bucket PRIORITY_3 (tier1 files) files)
      ++ (List.insertionSort depthNameLe (bucket PRIORITY_4 (tier1 files) files)
      ++ (List.insertionSort depthNameLe (bucket PRIORITY_5 (tier1 files) files)
      ++ List.insertionSort depthNameLe
          (files.filter (fun f => !((placedOf files).contains f))))))) := by
  rw [prioritizeFiles, placedOf]
  simp [List.append_assoc]

/-- Helper: filtering the output of `_prioritize_files` down to the tier-1
names recovers exactly the sorted tier-1 segment. -/
theorem filter_tier1_prioritize (files : List PyPath) :
    (prioritizeFiles files).filter (fun x => PRIORITY_1.contains x.name)
      = List.insertionSort nameLe (tier1 files) := by
  rw [prioritize_decomp files, List.filter_append, List.filter_append,
    List.filter_append, List.filter_append, List.filter_append]
  have h1 : (List.insertionSort nameLe (tier1 files)).filter
      (fun x => PRIORITY_1.contains x.name)
      = List.insertionSort nameLe (tier1 files) := by
    rw [List.filter_eq_self]
    intro x hx
    exact (mem_tier1.mp ((List.mem_insertionSort _).mp hx)).2
  have hb : ∀ g, (List.insertionSort depthNameLe (bucket g (tier1 files) files)).filter
      (fun x => PRIORITY_1.contains x.name) = [] := by
    intro g
    rw [List.filter_eq_nil_iff]
    intro x hx hpx
    rw [List.mem_insertionSort] at hx
    obtain ⟨hxf, hbx⟩ := mem_bucket.mp hx
    rw [Bool.and_eq_true, Bool.not_eq_true'] at hbx
    exact not_mem_of_contains_eq_false hbx.2 (mem_tier1.mpr ⟨hxf, hpx⟩)
  have hr : (List.insertionSort depthNameLe
      (files.filter (fun f => !((placedOf files).contains f)))).filter
      (fun x => PRIORITY_1.contains x.name) = [] := by
    rw [List.filter_eq_nil_iff]
    intro x hx hpx
    rw [List.mem_insertionSort] at hx
    obtain ⟨hxf, hprd⟩ := List.mem_filter.mp hx
    rw [Bool.not_eq_true'] at hprd
    exact not_mem_of_contains_eq_false hprd ((mem_placed_iff hxf).mpr (Or.inl hpx))
  rw [h1, hb, hb, hb, hb, hr]
  simp

/-- C6: a collected file whose bare name is tier-1 (at any depth) is ordered
before every collected `.py` file; the tier-1 files of the output are
exactly the tier-1 selection sorted by name alone; and a tier-1 file appears
exactly once (it is never re-placed into a later tier). -/
theorem prioritizeFiles_tier1_order (files : List PyPath) (f g : PyPath)
    (hnd : files.Nodup) (hf : f ∈ files) (hf1 : f.name ∈ PRIORITY_1)
    (hg : g ∈ files) (hgpy : g.suffix = ".py") :
    [f, g].Sublist (prioritizeFiles files)
    ∧ List.Sorted nameLe
        ((prioritizeFiles files).filter (fun x => PRIORITY_1.contains x.name))
    ∧ (prioritizeFiles files).count f = 1 := by
  have hgnot1 : g.name ∉ PRIORITY_1 := fun hc => tier1_not_py g.name hc hgpy
  have hg2 : g ∈ bucket PRIORITY_2 (tier1 files) files := by
    refine mem_bucket.mpr ⟨hg, ?_⟩
    have ha : PRIORITY_2.contains g.suffix = true := by rw [hgpy]; decide
    have hb : (tier1 files).contains g = false :=
      contains_eq_false_of_not_mem
        (fun hc => hgnot1 (by simpa using (mem_tier1.mp hc).2))
    rw [ha, hb]
    rfl
  refine ⟨?_, ?_, ?_⟩
  · rw [prioritize_decomp files]
    have h1 : [f].Sublist (List.insertionSort nameLe (tier1 files)) :=
      List.singleton_sublist.mpr ((List.mem_insertionSort _).mpr
        (mem_tier1.mpr ⟨hf, contains_eq_true_of_mem hf1⟩))
    have h2 : [g].Sublist (List.insertionSort depthNameLe
        (bucket PRIORITY_2 (tier1 files) files)
        ++ (List.insertionSort depthNameLe (bucket PRIORITY_3 (tier1 files) files)
        ++ (List.insertionSort depthNameLe (bucket PRIORITY_4 (tier1 files) files)
        ++ (List.insertionSort depthNameLe (bucket PRIORITY_5 (tier1 files) files)
        ++ List.insertionSort depthNameLe
            (files.filter (fun x => !((placedOf files).contains x))))))) :=
      List.singleton_sublist.mpr (List.mem_append.mpr
        (Or.inl ((List.mem_insertionSort _).mpr hg2)))
    exact List.Sublist.append h1 h2
  · rw [filter_tier1_prioritize]
    exact List.sorted_insertionSort nameLe (tier1 files)
  · rw [(perm_prioritize files).count_eq f]
    exact List.count_eq_one_of_mem hnd hf

/-- Witness for C6: a nested `README.md` is placed before a shallower
`.py` file. -/
theorem prioritizeFiles_tier1_order_witness :
    [PyPath.mk ["r", "docs", "README.md"], PyPath.mk ["r", "app.py"]].Sublist
      (prioritizeFiles [PyPath.mk ["r", "app.py"], PyPath.mk ["r", "docs", "README.md"]])
    ∧ List.Sorted nameLe
        ((prioritizeFiles [PyPath.mk ["r", "app.py"], PyPath.mk ["r", "docs", "README.md"]]).filter
          (fun x => PRIORITY_1.contains x.name))
    ∧ (prioritizeFiles [PyPath.mk ["r", "app.py"], PyPath.mk ["r", "docs", "README.md"]]).count
        (PyPath.mk ["r", "docs", "README.md"]) = 1 :=
  prioritizeFiles_tier1_order
    [PyPath.mk ["r", "app.py"], PyPath.mk ["r", "docs", "README.md"]]
    (PyPath.mk ["r", "docs", "README.md"]) (PyPath.mk ["r", "app.py"])
    (by decide) (by decide) (by decide) (by decide) (by decide)

/-- Helper: re-running the tier-2 selection on the output of
`_prioritize_files` (against the already-sorted tier-1 list) returns the
sorted tier-2 segment unchanged. -/
theorem bucket2_prioritize (files : List PyPath) :
    (prioritizeFiles files).filter
      (fun f => PRIORITY_2.contains f.suffix && !((List.insertionSort nameLe (tier1 files)).contains f))
      = List.insertionSort depthNameLe (bucket PRIORITY_2 (tier1 files) files) := by
  rw [prioritize_decomp files, List.filter_append, List.filter_append,
    List.filter_append, List.filter_append, List.filter_append]
  have h1 : (List.insertionSort nameLe (tier1 files)).filter
      (fun f => PRIORITY_2.contains f.suffix && !((List.insertionSort nameLe (tier1 files)).contains f)) = [] := by
    rw [List.filter_eq_nil_iff]
    intro x hx hpx
    rw [contains_eq_true_of_mem hx] at hpx
    simp at hpx
  have h2 : (List.insertionSort depthNameLe (bucket PRIORITY_2 (tier1 files) files)).filter
      (fun f => PRIORITY_2.contains f.suffix && !((List.insertionSort nameLe (tier1 files)).contains f))
      = List.insertionSort depthNameLe (bucket PRIORITY_2 (tier1 files) files) := by
    rw [List.filter_eq_self]
    intro x hx
    rw [List.mem_insertionSort] at hx
    obtain ⟨hxf, hbx⟩ := mem_bucket.mp hx
    rw [Bool.and_eq_true, Bool.not_eq_true'] at hbx
    have hxnot : x ∉ tier1 files := not_mem_of_contains_eq_false hbx.2
    have hs1 : (List.insertionSort nameLe (tier1 files)).contains x = false :=
      contains_eq_false_of_not_mem (fun hc => hxnot ((List.mem_insertionSort _).mp hc))
    rw [hbx.1, hs1]
    rfl
  have h3 : (List.insertionSort depthNameLe (bucket PRIORITY_3 (tier1 files) files)).filter
      (fun f => PRIORITY_2.contains f.suffix && !((List.insertionSort nameLe (tier1 files)).contains f)) = [] := by
    rw [List.filter_eq_nil_iff]
    intro x hx hpx
    rw [List.mem_insertionSort] at hx
    obtain ⟨hxf, hbx⟩ := mem_bucket.mp hx
    rw [Bool.and_eq_true] at hbx
    have hm : x.suffix ∈ PRIORITY_3 := by simpa using hbx.1
    have hno : PRIORITY_2.contains x.suffix = false :=
      contains_eq_false_of_not_mem (fun hc => disjoint23 x.suffix hc hm)
    rw [Bool.and_eq_true, hno] at hpx
    exact Bool.noConfusion hpx.1
  have h4 : (List.insertionSort depthNameLe (bucket PRIORITY_4 (tier1 files) files)).filter
      (fun f => PRIORITY_2.contains f.suffix && !((List.insertionSort nameLe (tier1 files)).contains f)) = [] := by
    rw [List.filter_eq_nil_iff]
    intro x hx hpx
    rw [List.mem_insertionSort] at hx
    obtain ⟨hxf, hbx⟩ := mem_bucket.mp hx
    rw [Bool.and_eq_true] at hbx
    have hm : x.suffix ∈ PRIORITY_4 := by simpa using hbx.1
    have hno : PRIORITY_2.contains x.suffix = false :=
      contains_eq_false_of_not_mem (fun hc => disjoint24 x.suffix hc hm)
    rw [Bool.and_eq_true, hno] at hpx
    exact Bool.noConfusion hpx.1
  have h5 : (List.insertionSort depthNameLe (bucket PRIORITY_5 (tier1 files) files)).filter
      (fun f => PRIORITY_2.contains f.suffix && !((List.insertionSort nameLe (tier1 files)).contains f)) = [] := by
    rw [List.filter_eq_nil_iff]
    intro x hx hpx
    rw [List.mem_insertionSort] at hx
    obtain ⟨hxf, hbx⟩ := mem_bucket.mp hx
    rw [Bool.and_eq_true] at hbx
    have hm : x.suffix ∈ PRIORITY_5 := by simpa using hbx.1
    have hno : PRIORITY_2.contains x.suffix = false :=
      contains_eq_false_of_not_mem (fun hc => disjoint25 x.suffix hc hm)
    rw [Bool.and_eq_true, hno] at hpx
    exact Bool.noConfusion hpx.1
  have hrm : (List.insertionSort depthNameLe
      (files.filter (fun f => !((placedOf files).contains f)))).filter
      (fun f => PRIORITY_2.contains f.suffix && !((List.insertionSort nameLe (tier1 files)).contains f)) = [] := by
    rw [List.filter_eq_nil_iff]
    intro x hx hpx
    rw [List.mem_insertionSort] at hx
    obtain ⟨hxf, hprd⟩ := List.mem_filter.mp hx
    rw [Bool.not_eq_true'] at hprd
    rw [Bool.and_eq_true] at hpx
    exact not_mem_of_contains_eq_false hprd
      ((mem_placed_iff hxf).mpr (Or.inr (Or.inl hpx.1)))
  rw [h1, h2, h3, h4, h5, hrm]
  simp


/-- Helper: re-running the tier-3 selection on the output of
`_prioritize_files` (against the already-sorted tier-1 list) returns the
sorted tier-3 segment unchanged. -/
theorem bucket3_prioritize (files : List PyPath) :
    (prioritizeFiles files).filter
      (fun f => PRIORITY_3.contains f.suffix && !((List.insertionSort nameLe (tier1 files)).contains f))
      = List.insertionSort depthNameLe (bucket PRIORITY_3 (tier1 files) files) := by
  rw [prioritize_decomp files, List.filter_append, List.filter_append,
    List.filter_append, List.filter_append, List.filter_append]
  have h1 : (List.insertionSort nameLe (tier1 files)).filter
      (fun f => PRIORITY_3.contains f.suffix && !((List.insertionSort nameLe (tier1 files)).contains f)) = [] := by
    rw [List.filter_eq_nil_iff]
    intro x hx hpx
    rw [contains_eq_true_of_mem hx] at hpx
    simp at hpx
  have h2 : (List.insertionSort depthNameLe (bucket PRIORITY_2 (tier1 files) files)).filter
      (fun f => PRIORITY_3.contains f.suffix && !((List.insertionSort nameLe (tier1 files)).contains f)) = [] := by
    rw [List.filter_eq_nil_iff]
    intro x hx hpx
    rw [List.mem_insertionSort] at hx
    obtain ⟨hxf, hbx⟩ := mem_bucket.mp hx
    rw [Bool.and_eq_true] at hbx
    have hm : x.suffix ∈ PRIORITY_2 := by simpa using hbx.1
    have hno : PRIORITY_3.contains x.suffix = false :=
      contains_eq_false_of_not_mem (disjoint23 x.suffix hm)
    rw [Bool.and_eq_true, hno] at hpx
    exact Bool.noConfusion hpx.1
  have h3 : (List.insertionSort depthNameLe (bucket PRIORITY_3 (tier1 files) files)).filter
      (fun f => PRIORITY_3.contains f.suffix && !((List.insertionSort nameLe (tier1 files)).contains f))
      = List.insertionSort depthNameLe (bucket PRIORITY_3 (tier1 files) files) := by
    rw [List.filter_eq_self]
    intro x hx
    rw [List.mem_insertionSort] at hx
    obtain ⟨hxf, hbx⟩ := mem_bucket.mp hx
    rw [Bool.and_eq_true, Bool.not_eq_true'] at hbx
    have hxnot : x ∉ tier1 files := not_mem_of_contains_eq_false hbx.2
    have hs1 : (List.insertionSort nameLe (tier1 files)).contains x = false :=
      contains_eq_false_of_not_mem (fun hc => hxnot ((List.mem_insertionSort _).mp hc))
    rw [hbx.1, hs1]
    rfl
  have h4 : (List.insertionSort depthNameLe (bucket PRIORITY_4 (tier1 files) files)).filter
      (fun f => PRIORITY_3.contains f.suffix && !((List.insertionSort nameLe (tier1 files)).contains f)) = [] := by
    rw [List.filter_eq_nil_iff]
    intro x hx hpx
    rw [List.mem_insertionSort] at hx
    obtain ⟨hxf, hbx⟩ := mem_bucket.mp hx
    rw [Bool.and_eq_true] at hbx
    have hm : x.suffix ∈ PRIORITY_4 := by simpa using hbx.1
    have hno : PRIORITY_3.contains x.suffix = false :=
      contains_eq_false_of_not_mem (fun hc => disjoint34 x.suffix hc hm)
    rw [Bool.and_eq_true, hno] at hpx
    exact Bool.noConfusion hpx.1
  have h5 : (List.insertionSort depthNameLe (bucket PRIORITY_5 (tier1 files) files)).filter
      (fun f => PRIORITY_3.contains f.suffix && !((List.insertionSort nameLe (tier1 files)).contains f)) = [] := by
    rw [List.filter_eq_nil_iff]
    intro x hx hpx
    rw [List.mem_insertionSort] at hx
    obtain ⟨hxf, hbx⟩ := mem_bucket.mp hx
    rw [Bool.and_eq_true] at hbx
    have hm : x.suffix ∈ PRIORITY_5 := by simpa using hbx.1
    have hno : PRIORITY_3.contains x.suffix = false :=
      contains_eq_false_of_not_mem (fun hc => disjoint35 x.suffix hc hm)
    rw [Bool.and_eq_true, hno] at hpx
    exact Bool.noConfusion hpx.1
  have hrm : (List.insertionSort depthNameLe
      (files.filter (fun f => !((placedOf files).contains f)))).filter
      (fun f => PRIORITY_3.contains f.suffix && !((List.insertionSort nameLe (tier1 files)).contains f)) = [] := by
    rw [List.filter_eq_nil_iff]
    intro x hx hpx
    rw [List.mem_insertionSort] at hx
    obtain ⟨hxf, hprd⟩ := List.mem_filter.mp hx
    rw [Bool.not_eq_true'] at hprd
    rw [Bool.and_eq_true] at hpx
    exact not_mem_of_contains_eq_false hprd
      ((mem_placed_iff hxf).mpr (Or.inr (Or.inr (Or.inl hpx.1))))
  rw [h1, h2, h3, h4, h5, hrm]
  simp


/-- Helper: re-running the tier-4 selection on the output of
`_prioritize_files` (against the already-sorted tier-1 list) returns the
sorted tier-4 segment unchanged. -/
theorem bucket4_prioritize (files : List PyPath) :
    (prioritizeFiles files).filter
      (fun f => PRIORITY_4.contains f.suffix && !((List.insertionSort nameLe (tier1 files)).contains f))
      = List.insertionSort depthNameLe (bucket PRIORITY_4 (tier1 files) files) := by
  rw [prioritize_decomp files, List.filter_append, List.filter_append,
    List.filter_append, List.filter_append, List.filter_append]
  have h1 : (List.insertionSort nameLe (tier1 files)).filter
      (fun f => PRIORITY_4.contains f.suffix && !((List.insertionSort nameLe (tier1 files)).contains f)) = [] := by
    rw [List.filter_eq_nil_iff]
    intro x hx hpx
    rw [contains_eq_true_of_mem hx] at hpx
    simp at hpx
  have h2 : (List.insertionSort depthNameLe (bucket PRIORITY_2 (tier1 files) files)).filter
      (fun f => PRIORITY_4.contains f.suffix && !((List.insertionSort nameLe (tier1 files)).contains f)) = [] := by
    rw [List.filter_eq_nil_iff]
    intro x hx hpx
    rw [List.mem_insertionSort] at hx
    obtain ⟨hxf, hbx⟩ := mem_bucket.mp hx
    rw [Bool.and_eq_true] at hbx
    have hm : x.suffix ∈ PRIORITY_2 := by simpa using hbx.1
    have hno : PRIORITY_4.contains x.suffix = false :=
      contains_eq_false_of_not_mem (disjoint24 x.suffix hm)
    rw [Bool.and_eq_true, hno] at hpx
    exact Bool.noConfusion hpx.1
  have h3 : (List.insertionSort depthNameLe (bucket PRIORITY_3 (tier1 files) files)).filter
      (fun f => PRIORITY_4.contains f.suffix && !((List.insertionSort nameLe (tier1 files)).contains f)) = [] := by
    rw [List.filter_eq_nil_iff]
    intro x hx hpx
    rw [List.mem_insertionSort] at hx
    obtain ⟨hxf, hbx⟩ := mem_bucket.mp hx
    rw [Bool.and_eq_true] at hbx
    have hm : x.suffix ∈ PRIORITY_3 := by simpa using hbx.1
    have hno : PRIORITY_4.contains x.suffix = false :=
      contains_eq_false_of_not_mem (disjoint34 x.suffix hm)
    rw [Bool.and_eq_true, hno] at hpx
    exact Bool.noConfusion hpx.1
  have h4 : (List.insertionSort depthNameLe (bucket PRIORITY_4 (tier1 files) files)).filter
      (fun f => PRIORITY_4.contains f.suffix && !((List.insertionSort nameLe (tier1 files)).contains f))
      = List.insertionSort depthNameLe (bucket PRIORITY_4 (tier1 files) files) := by
    rw [List.filter_eq_self]
    intro x hx
    rw [List.mem_insertionSort] at hx
    obtain ⟨hxf, hbx⟩ := mem_bucket.mp hx
    rw [Bool.and_eq_true, Bool.not_eq_true'] at hbx
    have hxnot : x ∉ tier1 files := not_mem_of_contains_eq_false hbx.2
    have hs1 : (List.insertionSort nameLe (tier1 files)).contains x = false :=
      contains_eq_false_of_not_mem (fun hc => hxnot ((List.mem_insertionSort _).mp hc))
    rw [hbx.1, hs1]
    rfl
  have h5 : (List.insertionSort depthNameLe (bucket PRIORITY_5 (tier1 files) files)).filter
      (fun f => PRIORITY_4.contains f.suffix && !((List.insertionSort nameLe (tier1 files)).contains f)) = [] := by
    rw [List.filter_eq_nil_iff]
    intro x hx hpx
    rw [List.mem_insertionSort] at hx
    obtain ⟨hxf, hbx⟩ := mem_bucket.mp hx
    rw [Bool.and_eq_true] at hbx
    have hm : x.suffix ∈ PRIORITY_5 := by simpa using hbx.1
    have hno : PRIORITY_4.contains x.suffix = false :=
      contains_eq_false_of_not_mem (fun hc => disjoint45 x.suffix hc hm)
    rw [Bool.and_eq_true, hno] at hpx
    exact Bool.noConfusion hpx.1
  have hrm : (List.insertionSort depthNameLe
      (files.filter (fun f => !((placedOf files).contains f)))).filter
      (fun f => PRIORITY_4.contains f.suffix && !((List.insertionSort nameLe (tier1 files)).contains f)) = [] := by
    rw [List.filter_eq_nil_iff]
    intro x hx hpx
    rw [List.mem_insertionSort] at hx
    obtain ⟨hxf, hprd⟩ := List.mem_filter.mp hx
    rw [Bool.not_eq_true'] at hprd
    rw [Bool.and_eq_true] at hpx
    exact not_mem_of_contains_eq_false hprd
      ((mem_placed_iff hxf).mpr (Or.inr (Or.inr (Or.inr (Or.inl hpx.1)))))
  rw [h1, h2, h3, h4, h5, hrm]
  simp


/-- Helper: re-running the tier-5 selection on the output of
`_prioritize_files` (against the already-sorted tier-1 list) returns the
sorted tier-5 segment unchanged. -/
theorem bucket5_prioritize (files : List PyPath) :
    (prioritizeFiles files).filter
      (fun f => PRIORITY_5.contains f.suffix && !((List.insertionSort nameLe (tier1 files)).contains f))
      = List.insertionSort depthNameLe (bucket PRIORITY_5 (tier1 files) files) := by
  rw [prioritize_decomp files, List.filter_append, List.filter_append,
    List.filter_append, List.filter_append, List.filter_append]
  have h1 : (List.insertionSort nameLe (tier1 files)).filter
      (fun f => PRIORITY_5.contains f.suffix && !((List.insertionSort nameLe (tier1 files)).contains f)) = [] := by
    rw [List.filter_eq_nil_iff]
    intro x hx hpx
    rw [contains_eq_true_of_mem hx] at hpx
    simp at hpx
  have h2 : (List.insertionSort depthNameLe (bucket PRIORITY_2 (tier1 files) files)).filter
      (fun f => PRIORITY_5.contains f.suffix && !((List.insertionSort nameLe (tier1 files)).contains f)) = [] := by
    rw [List.filter_eq_nil_iff]
    intro x hx hpx
    rw [List.mem_insertionSort] at hx
    obtain ⟨hxf, hbx⟩ := mem_bucket.mp hx
    rw [Bool.and_eq_true] at hbx
    have hm : x.suffix ∈ PRIORITY_2 := by simpa using hbx.1
    have hno : PRIORITY_5.contains x.suffix = false :=
      contains_eq_false_of_not_mem (disjoint25 x.suffix hm)
    rw [Bool.and_eq_true, hno] at hpx
    exact Bool.noConfusion hpx.1
  have h3 : (List.insertionSort depthNameLe (bucket PRIORITY_3 (tier1 files) files)).filter
      (fun f => PRIORITY_5.contains f.suffix && !((List.insertionSort nameLe (tier1 files)).contains f)) = [] := by
    rw [List.filter_eq_nil_iff]
    intro x hx hpx
    rw [List.mem_insertionSort] at hx
    obtain ⟨hxf, hbx⟩ := mem_bucket.mp hx
    rw [Bool.and_eq_true] at hbx
    have hm : x.suffix ∈ PRIORITY_3 := by simpa using hbx.1
    have hno : PRIORITY_5.contains x.suffix = false :=
      contains_eq_false_of_not_mem (disjoint35 x.suffix hm)
    rw [Bool.and_eq_true, hno] at hpx
    exact Bool.noConfusion hpx.1
  have h4 : (List.insertionSort depthNameLe (bucket PRIORITY_4 (tier1 files) files)).filter
      (fun f => PRIORITY_5.contains f.suffix && !((List.insertionSort nameLe (tier1 files)).contains f)) = [] := by
    rw [List.filter_eq_nil_iff]
    intro x hx hpx
    rw [List.mem_insertionSort] at hx
    obtain ⟨hxf, hbx⟩ := mem_bucket.mp hx
    rw [Bool.and_eq_true] at hbx
    have hm : x.suffix ∈ PRIORITY_4 := by simpa using hbx.1
    have hno : PRIORITY_5.contains x.suffix = false :=
      contains_eq_false_of_not_mem (disjoint45 x.suffix hm)
    rw [Bool.and_eq_true, hno] at hpx
    exact Bool.noConfusion hpx.1
  have h5 : (List.insertionSort depthNameLe (bucket PRIORITY_5 (tier1 files) files)).filter
      (fun f => PRIORITY_5.contains f.suffix && !((List.insertionSort nameLe (tier1 files)).contains f))
      = List.insertionSort depthNameLe (bucket PRIORITY_5 (tier1 files) files) := by
    rw [List.filter_eq_self]
    intro x hx
    rw [List.mem_insertionSort] at hx
    obtain ⟨hxf, hbx⟩ := mem_bucket.mp hx
    rw [Bool.and_eq_true, Bool.not_eq_true'] at hbx
    have hxnot : x ∉ tier1 files := not_mem_of_contains_eq_false hbx.2
    have hs1 : (List.insertionSort nameLe (tier1 files)).contains x = false :=
      contains_eq_false_of_not_mem (fun hc => hxnot ((List.mem_insertionSort _).mp hc))
    rw [hbx.1, hs1]
    rfl
  have hrm : (List.insertionSort depthNameLe
      (files.filter (fun f => !((placedOf files).contains f)))).filter
      (fun f => PRIORITY_5.contains f.suffix && !((List.insertionSort nameLe (tier1 files)).contains f)) = [] := by
    rw [List.filter_eq_nil_iff]
    intro x hx hpx
    rw [List.mem_insertionSort] at hx
    obtain ⟨hxf, hprd⟩ := List.mem_filter.mp hx
    rw [Bool.not_eq_true'] at hprd
    rw [Bool.and_eq_true] at hpx
    exact not_mem_of_contains_eq_false hprd
      ((mem_placed_iff hxf).mpr (Or.inr (Or.inr (Or.inr (Or.inr hpx.1)))))
  rw [h1, h2, h3, h4, h5, hrm]
  simp

/-- Helper: the tier-1 selection of the output of `_prioritize_files` is the
sorted tier-1 selection of the input. -/
theorem tier1_prioritize (files : List PyPath) :
    tier1 (prioritizeFiles files) = List.insertionSort nameLe (tier1 files) :=
  filter_tier1_prioritize files

/-- Helper: the Python `prioritized` list computed from the output of
`_prioritize_files` equals the one computed from its input. -/
theorem placed_prioritize (files : List PyPath) :
    placedOf (prioritizeFiles files) = placedOf files := by
  rw [placedOf, tier1_prioritize files]
  simp only [bucket]
  rw [bucket2_prioritize files, bucket3_prioritize files, bucket4_prioritize files,
    bucket5_prioritize files,
    List.Sorted.insertionSort_eq (List.sorted_insertionSort nameLe (tier1 files)),
    List.Sorted.insertionSort_eq
      (List.sorted_insertionSort depthNameLe (bucket PRIORITY_2 (tier1 files) files)),
    List.Sorted.insertionSort_eq
      (List.sorted_insertionSort depthNameLe (bucket PRIORITY_3 (tier1 files) files)),
    List.Sorted.insertionSort_eq
      (List.sorted_insertionSort depthNameLe (bucket PRIORITY_4 (tier1 files) files)),
    List.Sorted.insertionSort_eq
      (List.sorted_insertionSort depthNameLe (bucket PRIORITY_5 (tier1 files) files))]
  rfl

/-- Helper: re-selecting the remainder from the output of
`_prioritize_files` returns the already-sorted remainder segment. -/
theorem rem_prioritize (files : List PyPath) :
    (prioritizeFiles files).filter (fun f => !((placedOf files).contains f))
      = List.insertionSort depthNameLe
          (files.filter (fun f => !((placedOf files).contains f))) := by
  rw [prioritize_decomp files, List.filter_append, List.filter_append,
    List.filter_append, List.filter_append, List.filter_append]
  have h1 : (List.insertionSort nameLe (tier1 files)).filter
      (fun f => !((placedOf files).contains f)) = [] := by
    rw [List.filter_eq_nil_iff]
    intro x hx hpx
    have hxp : x ∈ placedOf files := by
      rw [placedOf]
      simp only [List.mem_append]
      exact Or.inl (Or.inl (Or.inl (Or.inl hx)))
    rw [contains_eq_true_of_mem hxp] at hpx
    simp at hpx
  have hb2 : (List.insertionSort depthNameLe
      (bucket PRIORITY_2 (tier1 files) files)).filter
      (fun f => !((placedOf files).contains f)) = [] := by
    rw [List.filter_eq_nil_iff]
    intro x hx hpx
    have hxp : x ∈ placedOf files := by
      rw [placedOf]
      simp only [List.mem_append]
      exact Or.inl (Or.inl (Or.inl (Or.inr hx)))
    rw [contains_eq_true_of_mem hxp] at hpx
    simp at hpx
  have hb3 : (List.insertionSort depthNameLe
      (bucket PRIORITY_3 (tier1 files) files)).filter
      (fun f => !((placedOf files).contains f)) = [] := by
    rw [List.filter_eq_nil_iff]
    intro x hx hpx
    have hxp : x ∈ placedOf files := by
      rw [placedOf]
      simp only [List.mem_append]
      exact Or.inl (Or.inl (Or.inr hx))
    rw [contains_eq_true_of_mem hxp] at hpx
    simp at hpx
  have hb4 : (List.insertionSort depthNameLe
      (bucket PRIORITY_4 (tier1 files) files)).filter
      (fun f => !((placedOf files).contains f)) = [] := by
    rw [List.filter_eq_nil_iff]
    intro x hx hpx
    have hxp : x ∈ placedOf files := by
      rw [placedOf]
      simp only [List.mem_append]
      exact Or.inl (Or.inr hx)
    rw [contains_eq_true_of_mem hxp] at hpx
    simp at hpx
  have hb5 : (List.insertionSort depthNameLe
      (bucket PRIORITY_5 (tier1 files) files)).filter
      (fun f => !((placedOf files).contains f)) = [] := by
    rw [List.filter_eq_nil_iff]
    intro x hx hpx
    have hxp : x ∈ placedOf files := by
      rw [placedOf]
      simp only [List.mem_append]
      exact Or.inr hx
    rw [contains_eq_true_of_mem hxp] at hpx
    simp at hpx
  have hrm : (List.insertionSort depthNameLe
      (files.filter (fun f => !((placedOf files).contains f)))).filter
      (fun f => !((placedOf files).contains f))
      = List.insertionSort depthNameLe
          (files.filter (fun f => !((placedOf files).contains f))) := by
    rw [List.filter_eq_self]
    intro x hx
    rw [List.mem_insertionSort] at hx
    exact (List.mem_filter.mp hx).2
  rw [h1, hb2, hb3, hb4, hb5, hrm]
  simp

/-- C3 (amended): re-classifying an already-ordered sequence yields the same
sequence — `_prioritize_files` is idempotent. -/
theorem prioritizeFiles_idempotent (files : List PyPath) :
    prioritizeFiles (prioritizeFiles files) = prioritizeFiles files := by
  show placedOf (prioritizeFiles files)
      ++ List.insertionSort depthNameLe
          ((prioritizeFiles files).filter
            (fun f => !((placedOf (prioritizeFiles files)).contains f)))
    = prioritizeFiles files
  rw [placed_prioritize files, rem_prioritize files,
    List.Sorted.insertionSort_eq (List.sorted_insertionSort depthNameLe
      (files.filter (fun f => !((placedOf files).contains f))))]
  rfl

/-- C3 counterexample: two permutations of the same two collected files
(equal depth, equal name, different parent directories) produce different
output orders, so the classification does depend on input iteration order. -/
theorem prioritizeFiles_order_dependent :
    ([PyPath.mk ["r", "b", "x.py"], PyPath.mk ["r", "a", "x.py"]].Perm
      [PyPath.mk ["r", "a", "x.py"], PyPath.mk ["r", "b", "x.py"]])
    ∧ prioritizeFiles [PyPath.mk ["r", "b", "x.py"], PyPath.mk ["r", "a", "x.py"]]
      ≠ prioritizeFiles [PyPath.mk ["r", "a", "x.py"], PyPath.mk ["r", "b", "x.py"]] := by
  constructor
  · exact List.Perm.swap _ _ _
  · decide

/-- Helper: UTF-8 byte size is additive over concatenation. -/
theorem strBytes_append (a b : String) :
    strBytes (a ++ b) = strBytes a + strBytes b := by
  simp [strBytes, String.data_append]

/-- Helper: the loop's running size grows by exactly the bytes it writes. -/
theorem writeLoop_size (read : PyPath → Option String) (repoPath : PyPath)
    (maxBytes : Int) : ∀ (fs : List PyPath) (size : Nat),
    (writeLoop read repoPath maxBytes fs size).size
      = size + strBytes (writeLoop read repoPath maxBytes fs size).body
  | [], size => by simp [writeLoop, strBytes]
  | f :: rest, size => by
    by_cases hge : (size : Int) ≥ maxBytes
    · simp [writeLoop, hge, strBytes]
    · rcases hread : read f with _ | content
      · simp only [writeLoop, hge, if_false, hread]
        exact writeLoop_size read repoPath maxBytes rest size
      · by_cases hfit : (size : Int) + (strBytes (sectionFor repoPath f content) : Int) > maxBytes
        · simp only [writeLoop, hge, hread, hfit, if_false, if_true, ite_true, ite_false]
          show size = size + strBytes ""
          simp [strBytes]
        · have ih := writeLoop_size read repoPath maxBytes rest
            (size + strBytes (sectionFor repoPath f content))
          simp only [writeLoop, hge, hread, hfit, if_false]
          rw [strBytes_append, ih]
          omega

/-- Helper: the loop's final size either stays at its start value or is
bounded by the budget. -/
theorem writeLoop_size_cases (read : PyPath → Option String) (repoPath : PyPath)
    (maxBytes : Int) : ∀ (fs : List PyPath) (size : Nat),
    (writeLoop read repoPath maxBytes fs size).size = size
      ∨ ((writeLoop read repoPath maxBytes fs size).size : Int) ≤ maxBytes
  | [], size => by simp [writeLoop]
  | f :: rest, size => by
    by_cases hge : (size : Int) ≥ maxBytes
    · simp [writeLoop, hge]
    · rcases hread : read f with _ | content
      · simp only [writeLoop, hge, if_false, hread]
        exact writeLoop_size_cases read repoPath maxBytes rest size
      · by_cases hfit : (size : Int) + (strBytes (sectionFor repoPath f content) : Int) > maxBytes
        · simp [writeLoop, hge, hread, hfit]
        · have ih := writeLoop_size_cases read repoPath maxBytes rest
            (size + strBytes (sectionFor repoPath f content))
          simp only [writeLoop, hge, hread, hfit, if_false]
          rcases ih with ih | ih
          · right
            rw [ih]
            push_cast
            omega
          · right
            exact ih

/-- Helper: when the loop completes, exactly the readable files were
written, and the size grew by the total size of their sections. -/
theorem writeLoop_complete (read : PyPath → Option String) (repoPath : PyPath)
    (maxBytes : Int) : ∀ (fs : List PyPath) (size : Nat),
    (writeLoop read repoPath maxBytes fs size).isComplete = true →
    (writeLoop read repoPath maxBytes fs size).written
        = fs.filter (fun f => (read f).isSome)
      ∧ (writeLoop read repoPath maxBytes fs size).size
        = size + ((fs.filter (fun f => (read f).isSome)).map
            (fun f => strBytes (sectionFor repoPath f ((read f).getD "")))).sum
  | [], size => by simp [writeLoop]
  | f :: rest, size => by
    intro hc
    by_cases hge : (size : Int) ≥ maxBytes
    · simp [writeLoop, hge] at hc
    · rcases hread : read f with _ | content
      · simp only [writeLoop, hge, if_false, hread] at hc ⊢
        have ih := writeLoop_complete read repoPath maxBytes rest size hc
        simp [List.filter_cons, hread, ih.1, ih.2]
      · by_cases hfit : (size : Int) + (strBytes (sectionFor repoPath f content) : Int) > maxBytes
        · simp [writeLoop, hge, hread, hfit] at hc
        · simp only [writeLoop, hge, hread, hfit, if_false] at hc ⊢
          have ih := writeLoop_complete read repoPath maxBytes rest
            (size + strBytes (sectionFor repoPath f content)) hc
          simp [List.filter_cons, hread, ih.1, ih.2]
          omega

/-- Helper: the loop never writes more files than it was given, and writes
strictly fewer when it stops incomplete. -/
theorem writeLoop_written_length (read : PyPath → Option String)
    (repoPath : PyPath) (maxBytes : Int) : ∀ (fs : List PyPath) (size : Nat),
    (writeLoop read repoPath maxBytes fs size).written.length ≤ fs.length
      ∧ ((writeLoop read repoPath maxBytes fs size).isComplete = false →
          (writeLoop read repoPath maxBytes fs size).written.length < fs.length)
  | [], size => by simp [writeLoop]
  | f :: rest, size => by
    by_cases hge : (size : Int) ≥ maxBytes
    · simp [writeLoop, hge]
    · rcases hread : read f with _ | content
      · simp only [writeLoop, hge, if_false, hread]
        have ih := writeLoop_written_length read repoPath maxBytes rest size
        constructor
        · exact le_trans ih.1 (Nat.le_succ _)
        · intro hc
          exact lt_trans (ih.2 hc) (Nat.lt_succ_self _)
      · by_cases hfit : (size : Int) + (strBytes (sectionFor repoPath f content) : Int) > maxBytes
        · simp [writeLoop, hge, hread, hfit]
        · simp only [writeLoop, hge, hread, hfit, if_false]
          have ih := writeLoop_written_length read repoPath maxBytes rest
            (size + strBytes (sectionFor repoPath f content))
          constructor
          · simpa using Nat.succ_le_succ ih.1
          · intro hc
            simpa using Nat.succ_lt_succ (ih.2 hc)

/-- Helper: the document component of `_write_markdown`. -/
theorem writeMarkdown_doc (files : List PyPath) (repoPath : PyPath)
    (read : PyPath → Option String) (genTime : String) (maxBytes : Int) :
    (writeMarkdown files repoPath read genTime maxBytes).doc
      = headerStr repoPath genTime ++ generateTree files repoPath ++ "\n\n"
        ++ contentsTitle
        ++ (writeLoop read repoPath maxBytes files
              (preambleBytes files repoPath genTime)).body
        ++ (if (writeLoop read repoPath maxBytes files
              (preambleBytes files repoPath genTime)).isComplete
            then "" else incompleteNote) := rfl

/-- Helper: the written-files component of `_write_markdown`. -/
theorem writeMarkdown_written (files : List PyPath) (repoPath : PyPath)
    (read : PyPath → Option String) (genTime : String) (maxBytes : Int) :
    (writeMarkdown files repoPath read genTime maxBytes).written
      = (writeLoop read repoPath maxBytes files
          (preambleBytes files repoPath genTime)).written := rfl

/-- Helper: the file-count component of `_write_markdown`. -/
theorem writeMarkdown_fileCount (files : List PyPath) (repoPath : PyPath)
    (read : PyPath → Option String) (genTime : String) (maxBytes : Int) :
    (writeMarkdown files repoPath read genTime maxBytes).fileCount
      = (writeLoop read repoPath maxBytes files
          (preambleBytes files repoPath genTime)).written.length := rfl

/-- Helper: the total-size component of `_write_markdown`. -/
theorem writeMarkdown_totalSize (files : List PyPath) (repoPath : PyPath)
    (read : PyPath → Option String) (genTime : String) (maxBytes : Int) :
    (writeMarkdown files repoPath read genTime maxBytes).totalSize
      = (if (writeLoop read repoPath maxBytes files
            (preambleBytes files repoPath genTime)).isComplete
         then (writeLoop read repoPath maxBytes files
            (preambleBytes files repoPath genTime)).size
         else (writeLoop read repoPath maxBytes files
            (preambleBytes files repoPath genTime)).size
              + strBytes incompleteNote) := rfl

/-- Helper: the completeness component of `_write_markdown`. -/
theorem writeMarkdown_isComplete (files : List PyPath) (repoPath : PyPath)
    (read : PyPath → Option String) (genTime : String) (maxBytes : Int) :
    (writeMarkdown files repoPath read genTime maxBytes).isComplete
      = (writeLoop read repoPath maxBytes files
          (preambleBytes files repoPath genTime)).isComplete := rfl

/-- Helper: the document's byte size is the returned total size plus the two
uncounted separator bytes. -/
theorem doc_bytes_helper (files : List PyPath) (repoPath : PyPath)
    (read : PyPath → Option String) (genTime : String) (maxBytes : Int) :
    strBytes (writeMarkdown files repoPath read genTime maxBytes).doc
      = (writeMarkdown files repoPath read genTime maxBytes).totalSize + 2 := by
  rw [writeMarkdown_doc, writeMarkdown_totalSize]
  have hsz := writeLoop_size read repoPath maxBytes files
    (preambleBytes files repoPath genTime)
  have hp : preambleBytes files repoPath genTime
      = strBytes (headerStr repoPath genTime)
        + strBytes (generateTree files repoPath) + strBytes contentsTitle := rfl
  rcases Bool.eq_false_or_eq_true (writeLoop read repoPath maxBytes files
      (preambleBytes files repoPath genTime)).isComplete with hc | hc
  · rw [hc, if_pos rfl, if_pos rfl, strBytes_append, strBytes_append,
      strBytes_append, strBytes_append, strBytes_append, hsz]
    have h2 : strBytes "\n\n" = 2 := rfl
    have h0 : strBytes "" = 0 := rfl
    omega
  · rw [hc]
    have hcf : ¬ ((false : Bool) = true) := Bool.noConfusion
    rw [if_neg hcf, if_neg hcf, strBytes_append, strBytes_append,
      strBytes_append, strBytes_append, strBytes_append, hsz]
    have h2 : strBytes "\n\n" = 2 := rfl
    omega

/-- C10: the total_size returned by `_write_markdown` (and used for all
budget comparisons) is exactly 2 bytes less than the UTF-8 byte size of the
document actually written: the two-byte separator written after the
directory tree is never added to the running size. -/
theorem writeMarkdown_size_off_by_two (files : List PyPath) (repoPath : PyPath)
    (read : PyPath → Option String) (genTime : String) (maxBytes : Int) :
    strBytes (writeMarkdown files repoPath read genTime maxBytes).doc
      = (writeMarkdown files repoPath read genTime maxBytes).totalSize + 2 :=
  doc_bytes_helper files repoPath read genTime maxBytes

set_option maxRecDepth 8000 in
/-- C1 counterexample: with budget 1 and one readable file the cumulative
section sizes exceed the budget and the build is incomplete, yet the
document is larger than budget-plus-note, because the header, tree and
section title are written before the budget is ever consulted. -/
theorem writeMarkdown_budget_cex :
    (0 : Int) < 1
    ∧ (1 : Int) < (sectionsTotal [PyPath.mk ["r", "a.txt"]] (PyPath.mk ["r"])
        (fun _ => some "hello") : Int)
    ∧ (writeMarkdown [PyPath.mk ["r", "a.txt"]] (PyPath.mk ["r"])
        (fun _ => some "hello") "" 1).isComplete = false
    ∧ ¬ (strBytes (writeMarkdown [PyPath.mk ["r", "a.txt"]] (PyPath.mk ["r"])
        (fun _ => some "hello") "" 1).doc ≤ 1 + strBytes incompleteNote) := by
  decide

/-- C1 (amended): for a positive budget, all files readable, and cumulative
section sizes over budget, `is_complete` is false and the document size is
bounded by `max(budget, header+tree+title bytes)` plus the note plus the two
uncounted separator bytes. -/
theorem writeMarkdown_budget_bound (files : List PyPath) (repoPath : PyPath)
    (read : PyPath → Option String) (genTime : String) (maxBytes : Int)
    (hpos : 0 < maxBytes)
    (hread : ∀ f ∈ files, (read f).isSome = true)
    (hover : maxBytes < (sectionsTotal files repoPath read : Int)) :
    (writeMarkdown files repoPath read genTime maxBytes).isComplete = false
    ∧ (strBytes (writeMarkdown files repoPath read genTime maxBytes).doc : Int)
        ≤ max maxBytes (preambleBytes files repoPath genTime : Int)
          + strBytes incompleteNote + 2 := by
  have hcomp : (writeLoop read repoPath maxBytes files
      (preambleBytes files repoPath genTime)).isComplete = false := by
    rcases Bool.eq_false_or_eq_true (writeLoop read repoPath maxBytes files
        (preambleBytes files repoPath genTime)).isComplete with hc | hc
    · exfalso
      have h := writeLoop_complete read repoPath maxBytes files
        (preambleBytes files repoPath genTime) hc
      have hfilter : files.filter (fun f => (read f).isSome) = files :=
        List.filter_eq_self.mpr hread
      rw [hfilter] at h
      have hst : ((files.map (fun f => strBytes (sectionFor repoPath f
          ((read f).getD "")))).sum) = sectionsTotal files repoPath read := rfl
      rw [hst] at h
      rcases writeLoop_size_cases read repoPath maxBytes files
          (preambleBytes files repoPath genTime) with hb | hb
      · rw [h.2] at hb
        have hz : sectionsTotal files repoPath read = 0 := by omega
        rw [hz] at hover
        simp at hover
        omega
      · rw [h.2] at hb
        push_cast at hb
        omega
    · exact hc
  refine ⟨by rw [writeMarkdown_isComplete]; exact hcomp, ?_⟩
  rw [doc_bytes_helper, writeMarkdown_totalSize, hcomp]
  have hcf : ¬ ((false : Bool) = true) := Bool.noConfusion
  rw [if_neg hcf]
  rcases writeLoop_size_cases read repoPath maxBytes files
      (preambleBytes files repoPath genTime) with hb | hb
  · rw [hb]
    have hm := le_max_right maxBytes ((preambleBytes files repoPath genTime : Nat) : Int)
    push_cast
    omega
  · have hm := le_max_left maxBytes ((preambleBytes files repoPath genTime : Nat) : Int)
    push_cast
    omega

/-- Witness for C1 (amended) at a one-file repository with budget 1. -/
theorem writeMarkdown_budget_bound_witness :
    (writeMarkdown [PyPath.mk ["r", "a.txt"]] (PyPath.mk ["r"])
        (fun _ => some "hello") "" 1).isComplete = false
    ∧ (strBytes (writeMarkdown [PyPath.mk ["r", "a.txt"]] (PyPath.mk ["r"])
        (fun _ => some "hello") "" 1).doc : Int)
        ≤ max 1 (preambleBytes [PyPath.mk ["r", "a.txt"]] (PyPath.mk ["r"]) "" : Int)
          + strBytes incompleteNote + 2 :=
  writeMarkdown_budget_bound [PyPath.mk ["r", "a.txt"]] (PyPath.mk ["r"])
    (fun _ => some "hello") "" 1 (by decide) (by decide) (by decide)

set_option maxRecDepth 8000 in
/-- C2 counterexample: a collected file whose read fails is skipped, not
written, and yet `is_complete` stays true — so `is_complete = true` is not
equivalent to "every collected, classified file was actually written". -/
theorem writeMarkdown_complete_cex :
    (writeMarkdown [PyPath.mk ["r", "a.py"]] (PyPath.mk ["r"])
        (fun _ => none) "" 1000000).isComplete = true
    ∧ (writeMarkdown [PyPath.mk ["r", "a.py"]] (PyPath.mk ["r"])
        (fun _ => none) "" 1000000).written = []
    ∧ [PyPath.mk ["r", "a.py"]] ≠ ([] : List PyPath) := by
  decide

/-- C2 (amended): when `_write_markdown` reports complete, exactly the
readable files were written (in order); files skipped on a read failure do
not falsify `is_complete`; and when every file is readable, `is_complete`
is true iff every collected file was written. -/
theorem writeMarkdown_complete_characterization (files : List PyPath)
    (repoPath : PyPath) (read : PyPath → Option String) (genTime : String)
    (maxBytes : Int) :
    ((writeMarkdown files repoPath read genTime maxBytes).isComplete = true →
      (writeMarkdown files repoPath read genTime maxBytes).written
        = files.filter (fun f => (read f).isSome))
    ∧ ((∀ f ∈ files, (read f).isSome = true) →
      ((writeMarkdown files repoPath read genTime maxBytes).isComplete = true
        ↔ (writeMarkdown files repoPath read genTime maxBytes).written = files)) := by
  constructor
  · intro hc
    rw [writeMarkdown_written]
    rw [writeMarkdown_isComplete] at hc
    exact (writeLoop_complete read repoPath maxBytes files
      (preambleBytes files repoPath genTime) hc).1
  · intro hr
    constructor
    · intro hc
      rw [writeMarkdown_written]
      rw [writeMarkdown_isComplete] at hc
      rw [(writeLoop_complete read repoPath maxBytes files
        (preambleBytes files repoPath genTime) hc).1]
      exact List.filter_eq_self.mpr hr
    · intro hw
      rw [writeMarkdown_isComplete]
      rcases Bool.eq_false_or_eq_true (writeLoop read repoPath maxBytes files
          (preambleBytes files repoPath genTime)).isComplete with hc | hc
      · exact hc
      · exfalso
        have hlt := (writeLoop_written_length read repoPath maxBytes files
          (preambleBytes files repoPath genTime)).2 hc
        rw [writeMarkdown_written] at hw
        rw [hw] at hlt
        exact lt_irrefl _ hlt

/-- Witness for C2 (amended): with one readable file and a large budget, the
completeness flag is equivalent to the file being written. -/
theorem writeMarkdown_complete_characterization_witness :
    (writeMarkdown [PyPath.mk ["r", "a.py"]] (PyPath.mk ["r"])
        (fun _ => some "x") "" 1000000).written = [PyPath.mk ["r", "a.py"]] :=
  ((writeMarkdown_complete_characterization [PyPath.mk ["r", "a.py"]]
      (PyPath.mk ["r"]) (fun _ => some "x") "" 1000000).2
    (by decide)).mp (by decide)

set_option maxRecDepth 8000 in
/-- C5 counterexample: with an empty file list and budget 0 (≤ 0), the
writer's loop never runs and `is_complete` remains true, contradicting the
claim that every file list with budget ≤ 0 yields `is_complete = false`. -/
theorem writeMarkdown_budget_zero_cex :
    (writeMarkdown [] (PyPath.mk ["r"]) (fun _ => none) "" 0).isComplete
      = true := by
  decide

/-- C5 (amended): for a non-empty file list and budget ≤ 0 the document is
exactly header, tree, separator, section title and the trailing note, with
zero files written and `is_complete = false`; for the empty file list (any
budget) the count is zero, `is_complete = true`, and the document is
exactly header, empty tree, separator and section title. -/
theorem writeMarkdown_degenerate (files : List PyPath) (repoPath : PyPath)
    (read : PyPath → Option String) (genTime : String) (maxBytes : Int) :
    (files ≠ [] → maxBytes ≤ 0 →
      (writeMarkdown files repoPath read genTime maxBytes).fileCount = 0
      ∧ (writeMarkdown files repoPath read genTime maxBytes).written = []
      ∧ (writeMarkdown files repoPath read genTime maxBytes).isComplete = false
      ∧ (writeMarkdown files repoPath read genTime maxBytes).doc
          = headerStr repoPath genTime ++ generateTree files repoPath ++ "\n\n"
            ++ contentsTitle ++ incompleteNote)
    ∧ (files = [] →
      (writeMarkdown files repoPath read genTime maxBytes).fileCount = 0
      ∧ (writeMarkdown files repoPath read genTime maxBytes).isComplete = true
      ∧ (writeMarkdown files repoPath read genTime maxBytes).doc
          = headerStr repoPath genTime ++ generateTree files repoPath ++ "\n\n"
            ++ contentsTitle) := by
  constructor
  · intro hne hmax
    obtain ⟨f, rest, hfs⟩ := List.exists_cons_of_ne_nil hne
    have hge : ((preambleBytes files repoPath genTime : Nat) : Int) ≥ maxBytes := by
      omega
    have hloop : writeLoop read repoPath maxBytes files
        (preambleBytes files repoPath genTime)
        = ⟨"", [], preambleBytes files repoPath genTime, false⟩ := by
      rw [hfs, writeLoop, if_pos (by rw [← hfs]; exact hge)]
    refine ⟨?_, ?_, ?_, ?_⟩
    · rw [writeMarkdown_fileCount, hloop]
      rfl
    · rw [writeMarkdown_written, hloop]
    · rw [writeMarkdown_isComplete, hloop]
    · rw [writeMarkdown_doc, hloop]
      simp
  · intro hfs
    subst hfs
    have hloop : writeLoop read repoPath maxBytes []
        (preambleBytes [] repoPath genTime)
        = ⟨"", [], preambleBytes [] repoPath genTime, true⟩ := by
      rw [writeLoop]
    refine ⟨?_, ?_, ?_⟩
    · rw [writeMarkdown_fileCount, hloop]
      rfl
    · rw [writeMarkdown_isComplete, hloop]
    · rw [writeMarkdown_doc, hloop]
      simp

/-- Witness for C5 (amended): one file with budget 0 is incomplete with zero
files written; the empty list with budget 0 is complete. -/
theorem writeMarkdown_degenerate_witness :
    (writeMarkdown [PyPath.mk ["r", "a.py"]] (PyPath.mk ["r"])
        (fun _ => some "x") "" 0).isComplete = false
    ∧ (writeMarkdown [] (PyPath.mk ["r"]) (fun _ => some "x") "" 0).fileCount
        = 0 :=
  ⟨((writeMarkdown_degenerate [PyPath.mk ["r", "a.py"]] (PyPath.mk ["r"])
      (fun _ => some "x") "" 0).1 (by decide) (by decide)).2.2.1,
   ((writeMarkdown_degenerate [] (PyPath.mk ["r"])
      (fun _ => some "x") "" 0).2 rfl).1⟩

instance : IsTotal (List String) dirLe :=
  ⟨fun a b => by
    have h := lexLe_total natLeb strLeb natLeb_total strLeb_total
      (a.length, pathStr a) (b.length, pathStr b)
    rcases Bool.or_eq_true_iff.mp h with h' | h'
    · exact Or.inl h'
    · exact Or.inr h'⟩

instance : IsTrans (List String) dirLe :=
  ⟨fun _ _ _ h1 h2 => lexLe_trans natLeb strLeb natLeb_trans natLeb_antisymm
    (fun _ _ _ ha hb => strLeb_trans ha hb) _ _ _ h1 h2⟩

instance : IsTotal PyPath parentNameLe :=
  ⟨fun a b => by
    have h := lexLe_total strLeb strLeb strLeb_total strLeb_total
      (pathStr a.parts.dropLast, a.name) (pathStr b.parts.dropLast, b.name)
    rcases Bool.or_eq_true_iff.mp h with h' | h'
    · exact Or.inl h'
    · exact Or.inr h'⟩

instance : IsTrans PyPath parentNameLe :=
  ⟨fun _ _ _ h1 h2 => lexLe_trans strLeb strLeb
    (fun _ _ _ ha hb => strLeb_trans ha hb)
    (fun _ _ ha hb => strLeb_antisymm ha hb)
    (fun _ _ _ ha hb => strLeb_trans ha hb) _ _ _ h1 h2⟩

/-- C8: `_generate_tree` produces a flat two-pass listing: the root name
with a trailing slash, then every ancestor directory of any listed file
exactly once (deduplicated across files) sorted by (depth, path) and
rendered indented by its depth, then all files sorted by
(parent directory, name) rendered indented by their own depth — directories
are never interleaved recursively with their files. -/
theorem generateTree_two_pass (files : List PyPath) (repoPath : PyPath) :
    ∃ ds fs,
      generateTree files repoPath
        = String.intercalate "\n"
            (["```", repoPath.name ++ "/"] ++ ds.map dirLine
              ++ fs.map (fileLine repoPath) ++ ["```"])
      ∧ ds.Nodup
      ∧ (∀ d, d ∈ ds ↔ ∃ f ∈ files, d ∈ ancestorsOf repoPath f)
      ∧ List.Sorted dirLe ds
      ∧ fs.Perm files
      ∧ List.Sorted parentNameLe fs := by
  refine ⟨List.insertionSort dirLe (treeDirs files repoPath),
    List.insertionSort parentNameLe files, rfl, ?_, ?_, ?_, ?_, ?_⟩
  · exact ((List.perm_insertionSort _ _).nodup_iff).mpr (List.nodup_dedup _)
  · intro d
    simp [treeDirs, List.mem_insertionSort, List.mem_dedup, List.mem_flatMap]
  · exact List.sorted_insertionSort _ _
  · exact List.perm_insertionSort _ _
  · exact List.sorted_insertionSort _ _
